import Mathlib

/-!
Shallow embedding of the SMC protocol client of this repository.

Two C translation units hold the client:
  src/internal/app/smc.c  (canonical copy, embedded in namespace `App`)
  src/smc.c               (near-duplicate copy, embedded in namespace `Root`)
with the shared header src/smc.h providing the structure layout and the
command-selector constants.

Modelling conventions, fixed once for the whole file:

* `char` on the target (Apple arm64/x86_64, the only platforms with IOKit)
  is a signed 8-bit type; a char value is an `Int` in [-128, 127].  Its
  promotion to `int` inside the packing expression sign-extends, which the
  embedding renders as reduction modulo 2^32 of the `Int` value
  (`u32ofInt`), i.e. the two's-complement 32-bit pattern.
* Machine integers are `Nat` (unsigned) or `Int` (signed) with explicit
  reductions `% 2^32` (or `% 256`) exactly where the C code converts or
  where a 32-bit shift wraps.
* The kernel is an external collaborator.  One session of calls is an
  oracle `KernelEnv : Nat -> Int × SMCKeyData_t` giving, for the n-th
  exchange issued by the function under study, the `kern_return_t` status
  (success = `kIOReturnSuccess` = 0) and the response structure the kernel
  writes back.  Every embedded function that issues exchanges also returns
  the list of `CallRecord`s it sent, so that claims about the number and
  the contents of the exchanges are statable.
* The fixed 32-byte payload array `SMCBytes_t` is a `List Nat`; a
  well-formed response frame has length 32 with entries below 256, which
  theorems assume where it matters.
* `double` results of the float decoder are represented by the 32-bit
  IEEE-754 single-precision pattern of the `float` they widen: the C code
  returns `(double)f` where `f` was filled by `memcpy` from the payload,
  and the widening conversion float -> double is exact and injective on
  values, with the `0.0` default corresponding to pattern 0.
-/

/-- Layout of `SMCKeyData_vers_t` from src/smc.h (unused by the core logic,
kept for structure fidelity; chars and the short as `Nat`). -/
structure SMCKeyData_vers_t where
  major : Nat
  minor : Nat
  build : Nat
  reserved : Nat
  release : Nat
deriving DecidableEq

/-- Layout of `SMCKeyData_pLimitData_t` from src/smc.h (unused by the core
logic, kept for structure fidelity). -/
structure SMCKeyData_pLimitData_t where
  version : Nat
  length : Nat
  cpuPLimit : Nat
  gpuPLimit : Nat
  memPLimit : Nat
deriving DecidableEq

/-- Layout of `SMCKeyData_keyInfo_t` from src/smc.h: `dataSize` and
`dataType` are `unsigned int`, `dataAttributes` a char byte. -/
structure SMCKeyData_keyInfo_t where
  dataSize : Nat
  dataType : Nat
  dataAttributes : Nat
deriving DecidableEq

/-- Layout of `SMCKeyData_t` from src/smc.h.  `key` and `data32` are
`unsigned int`; `result`, `status`, `data8` are char-sized fields; `bytes`
is the fixed 32-byte array `SMCBytes_t` modelled as a list of byte
values. -/
structure SMCKeyData_t where
  key : Nat
  vers : SMCKeyData_vers_t
  pLimitData : SMCKeyData_pLimitData_t
  keyInfo : SMCKeyData_keyInfo_t
  result : Nat
  status : Nat
  data8 : Nat
  data32 : Nat
  bytes : List Nat
deriving DecidableEq

/-- The all-zero `SMCKeyData_vers_t`, as produced by `memset(.., 0, ..)`. -/
def zeroVers : SMCKeyData_vers_t := ⟨0, 0, 0, 0, 0⟩

/-- The all-zero `SMCKeyData_pLimitData_t`, as produced by `memset`. -/
def zeroPLimit : SMCKeyData_pLimitData_t := ⟨0, 0, 0, 0, 0⟩

/-- The all-zero `SMCKeyData_keyInfo_t`, as produced by `memset`. -/
def zeroKeyInfo : SMCKeyData_keyInfo_t := ⟨0, 0, 0⟩

/-- The all-zero `SMCKeyData_t`: what `memset(&s, 0, sizeof(SMCKeyData_t))`
leaves in a structure; the 32-byte payload array is zero-filled. -/
def zeroKeyData : SMCKeyData_t :=
  ⟨0, zeroVers, zeroPLimit, zeroKeyInfo, 0, 0, 0, 0, List.replicate 32 0⟩

/-- `KERNEL_INDEX_SMC` from src/smc.h. -/
def KERNEL_INDEX_SMC : Nat := 2

/-- `SMC_CMD_READ_BYTES` from src/smc.h. -/
def SMC_CMD_READ_BYTES : Nat := 5

/-- `SMC_CMD_READ_INDEX` from src/smc.h. -/
def SMC_CMD_READ_INDEX : Nat := 8

/-- `SMC_CMD_READ_KEYINFO` from src/smc.h. -/
def SMC_CMD_READ_KEYINFO : Nat := 9

/-- Record of one exchange issued through `SMCCall`: the logical command
index passed to `IOConnectCallStructMethod` and the input structure sent. -/
structure CallRecord where
  idx : Nat
  input : SMCKeyData_t
deriving DecidableEq

/-- The all-zero call record, used as a list-lookup default. -/
def zeroCallRecord : CallRecord := ⟨0, zeroKeyData⟩

/-- Oracle for one session of kernel exchanges: the n-th exchange issued by
the function under study receives this status and response structure. -/
def KernelEnv : Type := Nat → Int × SMCKeyData_t

/-- Two's-complement 32-bit pattern of an `Int`: models the sign-extension
of a (possibly negative) promoted char into a 32-bit machine word, and the
conversion of a signed `int` value into an `unsigned int` field. -/
def u32ofInt (x : Int) : Nat := (x % (2 ^ 32 : Int)).toNat

/-- A 32-bit left shift: the value of `x << n` computed in a 32-bit machine
word (the int domain of the C expression), wrapping modulo 2^32. -/
def shl32 (x n : Nat) : Nat := (x <<< n) % 2 ^ 32

/-- Conversion of a 32-bit unsigned value to the target `int` that holds
the same bit pattern (two's complement); models the implementation-defined
`unsigned int` to `int` conversion at `return count;`. -/
def intOfU32 (n : Nat) : Int :=
  if n < 2 ^ 31 then (n : Int) else (n : Int) - 2 ^ 32

/-- Conversion of a byte value to the signed char holding that pattern:
models the implementation-defined narrowing at `outputKey[i] = ... & 0xFF`. -/
def byteToChar (b : Nat) : Int :=
  if b < 128 then (b : Int) else (b : Int) - 256

/-- The key-packing expression of src/internal/app/smc.c line 62 (and the
identical line of src/smc.c): `(key[0] << 24) | (key[1] << 16) |
(key[2] << 8) | key[3]` on signed chars promoted to int, stored into the
`unsigned int` field `inputStructure.key`. -/
def packKey (c0 c1 c2 c3 : Int) : Nat :=
  shl32 (u32ofInt c0) 24 ||| shl32 (u32ofInt c1) 16 |||
    shl32 (u32ofInt c2) 8 ||| u32ofInt c3

/-- The key-unpacking assignments of `SMCGetKeyFromIndex`
(src/internal/app/smc.c lines 133-136): the four chars
`(key >> 24) & 0xFF`, `(key >> 16) & 0xFF`, `(key >> 8) & 0xFF`,
`key & 0xFF`, each narrowed into a char. -/
def unpackKey (k : Nat) : List Int :=
  [byteToChar ((k >>> 24) &&& 255), byteToChar ((k >>> 16) &&& 255),
   byteToChar ((k >>> 8) &&& 255), byteToChar (k &&& 255)]

/-- Assembly of the 4 bytes `memcpy(&f, val.bytes, 4)` reads into the
IEEE-754 single-precision bit pattern of `f`: on the little-endian target,
payload byte i contributes bits 8i .. 8i+7 of the pattern. -/
def floatBitsOfBytes (bs : List Nat) : Nat :=
  bs.getD 0 0 ||| (bs.getD 1 0 <<< 8) ||| (bs.getD 2 0 <<< 16) |||
    (bs.getD 3 0 <<< 24)

/-- Collaborator state consumed by `SMCOpen`: the status returned by
`IOServiceGetMatchingServices`, the device handle produced by
`IOIteratorNext` (0 when the iterator is exhausted), and the status and
connection handle produced by `IOServiceOpen`. -/
structure OpenEnv where
  matchResult : Int
  device : Nat
  openResult : Int
  conn : Nat
deriving DecidableEq

namespace App

/-- `SMCOpen` of src/internal/app/smc.c: returns 0 when the
service-matching call fails, when the iterator yields no device, or when
`IOServiceOpen` fails; otherwise returns the established connection. -/
def SMCOpen (env : OpenEnv) : Nat :=
  if env.matchResult ≠ 0 then 0
  else if env.device = 0 then 0
  else if env.openResult ≠ 0 then 0
  else env.conn

/-- `SMCClose` of src/internal/app/smc.c: forwards to `IOServiceClose`
(modelled as an oracle from handles to statuses) and returns its status. -/
def SMCClose (closeEnv : Nat → Int) (conn : Nat) : Int :=
  closeEnv conn

/-- `SMCCall` of src/internal/app/smc.c: one synchronous
`IOConnectCallStructMethod` exchange with input and output buffers both of
size `sizeof(SMCKeyData_t)`.  The kernel's reply is the oracle's entry for
this call's position in the caller's exchange sequence (`callNo`); the
returned `CallRecord` witnesses the command index and input sent.  The
connection handle is part of the C signature; the oracle models the whole
session on that handle. -/
def SMCCall (env : KernelEnv) (callNo : Nat) (conn : Nat) (idx : Nat)
    (inputStructure : SMCKeyData_t) : (Int × SMCKeyData_t) × CallRecord :=
  (env callNo, ⟨idx, inputStructure⟩)

/-- `SMCReadKey` of src/internal/app/smc.c lines 52-82, for the key chars
`c0 c1 c2 c3` (the four chars `key[0] .. key[3]` of the C argument).
Returns the `kern_return_t` result, the out-parameter `*val` (zeroed on
entry), and the trace of exchanges issued. -/
def SMCReadKey (env : KernelEnv) (conn : Nat) (c0 c1 c2 c3 : Int) :
    Int × SMCKeyData_t × List CallRecord :=
  let inputStructure : SMCKeyData_t :=
    { zeroKeyData with key := packKey c0 c1 c2 c3,
                       data8 := SMC_CMD_READ_KEYINFO }
  let call1 := SMCCall env 0 conn KERNEL_INDEX_SMC inputStructure
  if call1.1.1 ≠ 0 then
    (call1.1.1, zeroKeyData, [call1.2])
  else
    let outputStructure := call1.1.2
    let val : SMCKeyData_t :=
      { zeroKeyData with keyInfo :=
          { zeroKeyInfo with dataSize := outputStructure.keyInfo.dataSize,
                             dataType := outputStructure.keyInfo.dataType } }
    let inputStructure2 : SMCKeyData_t :=
      { inputStructure with
          keyInfo := { inputStructure.keyInfo with
                         dataSize := outputStructure.keyInfo.dataSize },
          data8 := SMC_CMD_READ_BYTES }
    let call2 := SMCCall env 1 conn KERNEL_INDEX_SMC inputStructure2
    if call2.1.1 ≠ 0 then
      (call2.1.1, val, [call1.2, call2.2])
    else
      (0, { val with bytes := call2.1.2.bytes }, [call1.2, call2.2])

/-- `SMCGetFloatValue` of src/internal/app/smc.c lines 84-98.  The returned
`double` is represented by the 32-bit pattern of the float it widens
(see the file header): 0 stands for the `0.0` defaults, and on the
type-tag match the pattern is the `memcpy` of the first 4 payload bytes.
1718383648 is the packed float type tag. -/
def SMCGetFloatValue (env : KernelEnv) (conn : Nat) (c0 c1 c2 c3 : Int) :
    Nat :=
  let r := SMCReadKey env conn c0 c1 c2 c3
  if r.1 ≠ 0 then 0
  else if r.2.1.keyInfo.dataType = 1718383648 then
    floatBitsOfBytes r.2.1.bytes
  else 0

/-- `SMCGetKeyCount` of src/internal/app/smc.c lines 100-114: reads the
well-known key `#KEY` (chars 35, 75, 69, 89), returns 0 on a failed read,
and otherwise assembles `((unsigned char)bytes[0] << 24) | ... |
(unsigned char)bytes[3]` (the `% 256` renders the unsigned-char casts),
returning the `unsigned int` count through the `int` return type. -/
def SMCGetKeyCount (env : KernelEnv) (conn : Nat) : Int :=
  let r := SMCReadKey env conn 35 75 69 89
  if r.1 ≠ 0 then 0
  else
    intOfU32 (((r.2.1.bytes.getD 0 0 % 256) <<< 24) |||
      ((r.2.1.bytes.getD 1 0 % 256) <<< 16) |||
      ((r.2.1.bytes.getD 2 0 % 256) <<< 8) |||
      (r.2.1.bytes.getD 3 0 % 256))

/-- `SMCGetKeyFromIndex` of src/internal/app/smc.c lines 116-141: one
exchange with command selector `SMC_CMD_READ_INDEX` and the index (an
`int`, converted to the `unsigned int` field `data32`); on success the
5-char output buffer receives the four unpacked chars of the response key
and a NUL terminator.  `none` models the untouched output buffer of the
failure path. -/
def SMCGetKeyFromIndex (env : KernelEnv) (conn : Nat) (index : Int) :
    Int × Option (List Int) × List CallRecord :=
  let inputStructure : SMCKeyData_t :=
    { zeroKeyData with data8 := SMC_CMD_READ_INDEX,
                       data32 := u32ofInt index }
  let call1 := SMCCall env 0 conn KERNEL_INDEX_SMC inputStructure
  if call1.1.1 ≠ 0 then
    (call1.1.1, none, [call1.2])
  else
    let key := call1.1.2.key
    (0, some [byteToChar ((key >>> 24) &&& 255),
              byteToChar ((key >>> 16) &&& 255),
              byteToChar ((key >>> 8) &&& 255),
              byteToChar (key &&& 255), 0],
      [call1.2])

end App

namespace Root

/-- `SMCOpen` of the duplicate src/smc.c (textually identical to the
canonical copy). -/
def SMCOpen (env : OpenEnv) : Nat :=
  if env.matchResult ≠ 0 then 0
  else if env.device = 0 then 0
  else if env.openResult ≠ 0 then 0
  else env.conn

/-- `SMCClose` of the duplicate src/smc.c. -/
def SMCClose (closeEnv : Nat → Int) (conn : Nat) : Int :=
  closeEnv conn

/-- `SMCCall` of the duplicate src/smc.c. -/
def SMCCall (env : KernelEnv) (callNo : Nat) (conn : Nat) (idx : Nat)
    (inputStructure : SMCKeyData_t) : (Int × SMCKeyData_t) × CallRecord :=
  (env callNo, ⟨idx, inputStructure⟩)

/-- `SMCReadKey` of the duplicate src/smc.c lines 51-81 (textually
identical to the canonical copy). -/
def SMCReadKey (env : KernelEnv) (conn : Nat) (c0 c1 c2 c3 : Int) :
    Int × SMCKeyData_t × List CallRecord :=
  let inputStructure : SMCKeyData_t :=
    { zeroKeyData with key := packKey c0 c1 c2 c3,
                       data8 := SMC_CMD_READ_KEYINFO }
  let call1 := SMCCall env 0 conn KERNEL_INDEX_SMC inputStructure
  if call1.1.1 ≠ 0 then
    (call1.1.1, zeroKeyData, [call1.2])
  else
    let outputStructure := call1.1.2
    let val : SMCKeyData_t :=
      { zeroKeyData with keyInfo :=
          { zeroKeyInfo with dataSize := outputStructure.keyInfo.dataSize,
                             dataType := outputStructure.keyInfo.dataType } }
    let inputStructure2 : SMCKeyData_t :=
      { inputStructure with
          keyInfo := { inputStructure.keyInfo with
                         dataSize := outputStructure.keyInfo.dataSize },
          data8 := SMC_CMD_READ_BYTES }
    let call2 := SMCCall env 1 conn KERNEL_INDEX_SMC inputStructure2
    if call2.1.1 ≠ 0 then
      (call2.1.1, val, [call1.2, call2.2])
    else
      (0, { val with bytes := call2.1.2.bytes }, [call1.2, call2.2])

/-- `SMCGetFloatValue` of the duplicate src/smc.c lines 83-97 (textually
identical to the canonical copy; same bit-pattern representation). -/
def SMCGetFloatValue (env : KernelEnv) (conn : Nat) (c0 c1 c2 c3 : Int) :
    Nat :=
  let r := SMCReadKey env conn c0 c1 c2 c3
  if r.1 ≠ 0 then 0
  else if r.2.1.keyInfo.dataType = 1718383648 then
    floatBitsOfBytes r.2.1.bytes
  else 0

end Root

section BitHelpers

/-- Disjoint bitwise-or is addition: oring a multiple of 2^i with a value
below 2^i adds them. -/
lemma lor_small (a b i : Nat) (h : b < 2 ^ i) : (a * 2 ^ i) ||| b = a * 2 ^ i + b := by
  rw [mul_comm]
  exact (Nat.mul_add_lt_is_or h a).symm

/-- Masking with 255 is reduction modulo 256. -/
lemma and255 (x : Nat) : x &&& 255 = x % 256 :=
  Nat.and_pow_two_sub_one_eq_mod x 8

/-- The big-endian 4-byte bitwise-or assembly equals the corresponding
weighted sum when every byte is below 256. -/
lemma lor4_eq_sum (b0 b1 b2 b3 : Nat) (h0 : b0 < 256) (h1 : b1 < 256)
    (h2 : b2 < 256) (h3 : b3 < 256) :
    (b0 <<< 24) ||| (b1 <<< 16) ||| (b2 <<< 8) ||| b3 =
      b0 * 2 ^ 24 + b1 * 2 ^ 16 + b2 * 2 ^ 8 + b3 := by
  rw [Nat.shiftLeft_eq, Nat.shiftLeft_eq, Nat.shiftLeft_eq]
  rw [Nat.lor_assoc, Nat.lor_assoc]
  rw [lor_small b2 b3 8 (by omega)]
  rw [lor_small b1 (b2 * 2 ^ 8 + b3) 16 (by nlinarith)]
  rw [lor_small b0 (b1 * 2 ^ 16 + (b2 * 2 ^ 8 + b3)) 24 (by nlinarith)]
  ring

/-- Byte extraction from a big-endian weighted 4-byte sum. -/
lemma extract_bytes (b0 b1 b2 b3 : Nat) (h0 : b0 < 256) (h1 : b1 < 256)
    (h2 : b2 < 256) (h3 : b3 < 256) :
    let N := b0 * 2 ^ 24 + b1 * 2 ^ 16 + b2 * 2 ^ 8 + b3
    ((N >>> 24) &&& 255 = b0 ∧ (N >>> 16) &&& 255 = b1) ∧
      (N >>> 8) &&& 255 = b2 ∧ N &&& 255 = b3 := by
  simp only [Nat.shiftRight_eq_div_pow, and255]
  norm_num
  omega

end BitHelpers

/-- C1.  The claim quantifies over every 4-character key; on the target
`char` is signed, so a character with the high bit set sign-extends inside
the packing expression and corrupts the other bytes.  At the concrete key
with chars 65, 65, 65, -128 the pack/unpack round trip does not return the
original key (it yields chars -1, -1, -1, -128). -/
theorem packKey_roundtrip_counterexample :
    ¬ (unpackKey (packKey 65 65 65 (-128)) = [65, 65, 65, -128]) := by
  decide

/-- C1 (amended).  For every 4-character key whose characters are in the
ASCII range 0..127 (non-negative chars), packing the key into the 32-bit
big-endian representation, as `SMCReadKey` does on its key argument, and
unpacking that value back into 4 characters, as `SMCGetKeyFromIndex` does
on the response key field, is the identity. -/
theorem packKey_unpackKey_ascii_id (c0 c1 c2 c3 : Int)
    (g0 : 0 ≤ c0) (l0 : c0 < 128) (g1 : 0 ≤ c1) (l1 : c1 < 128)
    (g2 : 0 ≤ c2) (l2 : c2 < 128) (g3 : 0 ≤ c3) (l3 : c3 < 128) :
    unpackKey (packKey c0 c1 c2 c3) = [c0, c1, c2, c3] := by
  have hu : ∀ c : Int, 0 ≤ c → c < 128 → u32ofInt c = c.toNat := by
    intro c hg hl
    unfold u32ofInt
    rw [Int.emod_eq_of_lt hg (by omega)]
  have hb : ∀ c : Int, 0 ≤ c → c < 128 → c.toNat < 128 := by
    intro c hg hl; omega
  have hs : ∀ n k : Nat, n < 128 → k ≤ 24 → shl32 n k = n <<< k := by
    intro n k hn hk
    unfold shl32
    rw [Nat.shiftLeft_eq]
    refine Nat.mod_eq_of_lt ?_
    calc n * 2 ^ k ≤ n * 2 ^ 24 := by
          exact Nat.mul_le_mul_left n (Nat.pow_le_pow_right (by norm_num) hk)
      _ < 2 ^ 32 := by omega
  unfold packKey
  rw [hu c0 g0 l0, hu c1 g1 l1, hu c2 g2 l2, hu c3 g3 l3]
  rw [hs _ _ (hb c0 g0 l0) (by norm_num), hs _ _ (hb c1 g1 l1) (by norm_num),
      hs _ _ (hb c2 g2 l2) (by norm_num)]
  rw [lor4_eq_sum c0.toNat c1.toNat c2.toNat c3.toNat
    (by omega) (by omega) (by omega) (by omega)]
  have ex := extract_bytes c0.toNat c1.toNat c2.toNat c3.toNat
    (by omega) (by omega) (by omega) (by omega)
  simp only at ex
  unfold unpackKey
  rw [ex.1.1, ex.1.2, ex.2.1, ex.2.2]
  have hc : ∀ c : Int, 0 ≤ c → c < 128 → byteToChar c.toNat = c := by
    intro c hg hl
    unfold byteToChar
    rw [if_pos (by omega)]
    omega
  rw [hc c0 g0 l0, hc c1 g1 l1, hc c2 g2 l2, hc c3 g3 l3]


/-- C1 witness: the round trip at the concrete ASCII key with chars
35, 75, 69, 89 (the well-known key of the enumeration helper). -/
theorem packKey_unpackKey_ascii_id_witness :
    unpackKey (packKey 35 75 69 89) = [35, 75, 69, 89] :=
  packKey_unpackKey_ascii_id 35 75 69 89 (by norm_num) (by norm_num)
    (by norm_num) (by norm_num) (by norm_num) (by norm_num) (by norm_num)
    (by norm_num)

section ReadKeyShape

/-- The first request structure `SMCReadKey` sends: zeroed except the
packed key and the read-keyinfo selector. -/
def readKeyInput1 (c0 c1 c2 c3 : Int) : SMCKeyData_t :=
  { zeroKeyData with key := packKey c0 c1 c2 c3,
                     data8 := SMC_CMD_READ_KEYINFO }

/-- The second request structure `SMCReadKey` sends: the first one with the
learned `dataSize` and the read-bytes selector. -/
def readKeyInput2 (c0 c1 c2 c3 : Int) (sz : Nat) : SMCKeyData_t :=
  { readKeyInput1 c0 c1 c2 c3 with
      keyInfo := { zeroKeyInfo with dataSize := sz },
      data8 := SMC_CMD_READ_BYTES }

/-- The out-parameter after the metadata exchange succeeded: zeroed except
the two copied keyInfo fields. -/
def readKeyVal1 (env : KernelEnv) : SMCKeyData_t :=
  { zeroKeyData with keyInfo :=
      { zeroKeyInfo with dataSize := (env 0).2.keyInfo.dataSize,
                         dataType := (env 0).2.keyInfo.dataType } }

/-- Shape of `App.SMCReadKey` when the first exchange fails. -/
lemma readKey_fail1 (env : KernelEnv) (conn : Nat) (c0 c1 c2 c3 : Int)
    (h : (env 0).1 ≠ 0) :
    App.SMCReadKey env conn c0 c1 c2 c3 =
      ((env 0).1, zeroKeyData,
        [⟨KERNEL_INDEX_SMC, readKeyInput1 c0 c1 c2 c3⟩]) := by
  unfold App.SMCReadKey App.SMCCall readKeyInput1
  simp only [h, if_pos, ne_eq, not_false_iff, if_true]

/-- Shape of `App.SMCReadKey` when the first exchange succeeds and the
second fails. -/
lemma readKey_fail2 (env : KernelEnv) (conn : Nat) (c0 c1 c2 c3 : Int)
    (h1 : (env 0).1 = 0) (h2 : (env 1).1 ≠ 0) :
    App.SMCReadKey env conn c0 c1 c2 c3 =
      ((env 1).1, readKeyVal1 env,
        [⟨KERNEL_INDEX_SMC, readKeyInput1 c0 c1 c2 c3⟩,
         ⟨KERNEL_INDEX_SMC,
           readKeyInput2 c0 c1 c2 c3 (env 0).2.keyInfo.dataSize⟩]) := by
  unfold App.SMCReadKey App.SMCCall
  simp [readKeyInput1, readKeyInput2, readKeyVal1, zeroKeyData, zeroKeyInfo,
    h1, h2]

/-- Shape of `App.SMCReadKey` when both exchanges succeed. -/
lemma readKey_ok (env : KernelEnv) (conn : Nat) (c0 c1 c2 c3 : Int)
    (h1 : (env 0).1 = 0) (h2 : (env 1).1 = 0) :
    App.SMCReadKey env conn c0 c1 c2 c3 =
      (0, { readKeyVal1 env with bytes := (env 1).2.bytes },
        [⟨KERNEL_INDEX_SMC, readKeyInput1 c0 c1 c2 c3⟩,
         ⟨KERNEL_INDEX_SMC,
           readKeyInput2 c0 c1 c2 c3 (env 0).2.keyInfo.dataSize⟩]) := by
  unfold App.SMCReadKey App.SMCCall
  simp [readKeyInput1, readKeyInput2, readKeyVal1, zeroKeyData, zeroKeyInfo,
    h1, h2]

end ReadKeyShape

/-- C2.  `SMCReadKey` issues exactly two exchanges when the metadata
exchange succeeds — the first with selector read-keyinfo (9), the second
with selector read-bytes (5) carrying the learned `dataSize` — and exactly
one exchange when the first reports a non-success status, in which case no
second exchange is issued and the failing status is returned verbatim. -/
theorem readKey_exchange_discipline (env : KernelEnv) (conn : Nat)
    (c0 c1 c2 c3 : Int) :
    ((env 0).1 = 0 →
      (App.SMCReadKey env conn c0 c1 c2 c3).2.2.length = 2 ∧
      ((App.SMCReadKey env conn c0 c1 c2 c3).2.2.getD 0
          zeroCallRecord).input.data8 = SMC_CMD_READ_KEYINFO ∧
      ((App.SMCReadKey env conn c0 c1 c2 c3).2.2.getD 1
          zeroCallRecord).input.data8 = SMC_CMD_READ_BYTES ∧
      ((App.SMCReadKey env conn c0 c1 c2 c3).2.2.getD 1
          zeroCallRecord).input.keyInfo.dataSize =
        (env 0).2.keyInfo.dataSize) ∧
    ((env 0).1 ≠ 0 →
      (App.SMCReadKey env conn c0 c1 c2 c3).2.2.length = 1 ∧
      (App.SMCReadKey env conn c0 c1 c2 c3).1 = (env 0).1) := by
  constructor
  · intro h1
    by_cases h2 : (env 1).1 = 0
    · rw [readKey_ok env conn c0 c1 c2 c3 h1 h2]
      simp [readKeyInput1, readKeyInput2]
    · rw [readKey_fail2 env conn c0 c1 c2 c3 h1 h2]
      simp [readKeyInput1, readKeyInput2]
  · intro h1
    rw [readKey_fail1 env conn c0 c1 c2 c3 h1]
    simp

/-- C2 witness: a concrete session whose first exchange fails with status
7 — one exchange is issued and 7 is returned — next to a session whose
first exchange succeeds, where two exchanges with the right selectors are
issued. -/
theorem readKey_exchange_discipline_witness :
    ((App.SMCReadKey (fun _ => (7, zeroKeyData)) 1 65 66 67 68).2.2.length = 1 ∧
      (App.SMCReadKey (fun _ => (7, zeroKeyData)) 1 65 66 67 68).1 = 7) ∧
    ((App.SMCReadKey (fun _ => (0, zeroKeyData)) 1 65 66 67 68).2.2.length = 2) := by
  constructor
  · exact (readKey_exchange_discipline (fun _ => (7, zeroKeyData)) 1
      65 66 67 68).2 (by norm_num)
  · exact ((readKey_exchange_discipline (fun _ => (0, zeroKeyData)) 1
      65 66 67 68).1 rfl).1

/-- A concrete session whose metadata exchange succeeds, reporting the
float tag with size 4, and whose payload exchange fails with status 1. -/
def envFail2 : KernelEnv := fun n =>
  if n = 0 then
    (0, { zeroKeyData with keyInfo := ⟨4, 1718383648, 0⟩ })
  else (1, zeroKeyData)

/-- C8.  The claim asserts that after a failing exchange the out-parameter
holds no data at all — in particular no populated keyInfo alongside an
unfetched payload — for every failing exchange, first or second.  In the
concrete session `envFail2`, whose second exchange fails, the code has
already copied the learned `dataSize` and `dataType` into the
out-parameter, so the out-parameter is not the zeroed no-data structure. -/
theorem readKey_no_partial_counterexample :
    (App.SMCReadKey envFail2 1 65 66 67 68).1 = 1 ∧
      ¬ ((App.SMCReadKey envFail2 1 65 66 67 68).2.1 = zeroKeyData) := by
  constructor
  · rfl
  · decide

/-- C8 (amended).  When the first exchange fails its status is returned
verbatim and the out-parameter is entirely zeroed; when the second exchange
fails its status is returned verbatim and the payload bytes of the
out-parameter remain the zero fill (no stale payload), while the keyInfo
fields hold the metadata learned from the successful first exchange. -/
theorem readKey_failure_no_stale_payload (env : KernelEnv) (conn : Nat)
    (c0 c1 c2 c3 : Int) :
    ((env 0).1 ≠ 0 →
      (App.SMCReadKey env conn c0 c1 c2 c3).1 = (env 0).1 ∧
      (App.SMCReadKey env conn c0 c1 c2 c3).2.1 = zeroKeyData) ∧
    ((env 0).1 = 0 → (env 1).1 ≠ 0 →
      (App.SMCReadKey env conn c0 c1 c2 c3).1 = (env 1).1 ∧
      (App.SMCReadKey env conn c0 c1 c2 c3).2.1.bytes = List.replicate 32 0 ∧
      (App.SMCReadKey env conn c0 c1 c2 c3).2.1.keyInfo.dataSize =
        (env 0).2.keyInfo.dataSize ∧
      (App.SMCReadKey env conn c0 c1 c2 c3).2.1.keyInfo.dataType =
        (env 0).2.keyInfo.dataType) := by
  constructor
  · intro h1
    rw [readKey_fail1 env conn c0 c1 c2 c3 h1]
    exact ⟨rfl, rfl⟩
  · intro h1 h2
    rw [readKey_fail2 env conn c0 c1 c2 c3 h1 h2]
    exact ⟨rfl, rfl, rfl, rfl⟩

/-- C8 witness: the amended statement applied to the concrete session
`envFail2` (second exchange failing) and to an all-failing session. -/
theorem readKey_failure_no_stale_payload_witness :
    ((App.SMCReadKey (fun _ => (5, zeroKeyData)) 1 65 66 67 68).2.1 =
      zeroKeyData) ∧
    (App.SMCReadKey envFail2 1 65 66 67 68).2.1.bytes =
      List.replicate 32 0 := by
  constructor
  · exact ((readKey_failure_no_stale_payload (fun _ => (5, zeroKeyData)) 1
      65 66 67 68).1 (by norm_num)).2
  · exact ((readKey_failure_no_stale_payload envFail2 1 65 66 67 68).2
      rfl (by decide)).2.1

/-- C3.  When both exchanges succeed, the reported `dataType` is the float
tag 1718383648 and the reported `dataSize` is at least 4, the decoder
returns exactly the IEEE-754 single-precision value whose bit pattern is
the first 4 payload bytes (byte i at bits 8i..8i+7, the little-endian
`memcpy` reinterpretation), with no transformation — values being
represented by the bit pattern of the float the C code widens exactly to
double. -/
theorem getFloatValue_exact_decode (env : KernelEnv) (conn : Nat)
    (c0 c1 c2 c3 : Int) (b0 b1 b2 b3 : Nat) (rest : List Nat)
    (h1 : (env 0).1 = 0) (h2 : (env 1).1 = 0)
    (htag : (env 0).2.keyInfo.dataType = 1718383648)
    (hsz : 4 ≤ (env 0).2.keyInfo.dataSize)
    (hbytes : (env 1).2.bytes = b0 :: b1 :: b2 :: b3 :: rest) :
    App.SMCGetFloatValue env conn c0 c1 c2 c3 =
      b0 ||| (b1 <<< 8) ||| (b2 <<< 16) ||| (b3 <<< 24) := by
  unfold App.SMCGetFloatValue
  rw [readKey_ok env conn c0 c1 c2 c3 h1 h2]
  simp [readKeyVal1, htag, hbytes, floatBitsOfBytes]

/-- C3 witness: a concrete session reporting the float tag with size 4 and
payload bytes 1, 2, 3, 4 decodes to the pattern 0x04030201 = 67305985. -/
theorem getFloatValue_exact_decode_witness :
    App.SMCGetFloatValue
      (fun n => if n = 0 then
          (0, { zeroKeyData with keyInfo := ⟨4, 1718383648, 0⟩ })
        else
          (0, { zeroKeyData with
                  bytes := 1 :: 2 :: 3 :: 4 :: List.replicate 28 0 })) 1
      84 67 48 80 = 67305985 := by
  rw [getFloatValue_exact_decode
    (fun n => if n = 0 then
        (0, { zeroKeyData with keyInfo := ⟨4, 1718383648, 0⟩ })
      else
        (0, { zeroKeyData with
                bytes := 1 :: 2 :: 3 :: 4 :: List.replicate 28 0 })) 1
    84 67 48 80 1 2 3 4 (List.replicate 28 0) rfl rfl rfl (by norm_num) rfl]
  decide

/-- C4.  The lenient decoder collapses every failure to the neutral default
0.0 (bit pattern 0): when the first exchange fails, when the second
exchange fails, and when the read succeeds but the reported `dataType` is
not the float tag 1718383648; no error is propagated in any of these
cases. -/
theorem getFloatValue_neutral_default (env : KernelEnv) (conn : Nat)
    (c0 c1 c2 c3 : Int) :
    ((env 0).1 ≠ 0 → App.SMCGetFloatValue env conn c0 c1 c2 c3 = 0) ∧
    ((env 0).1 = 0 → (env 1).1 ≠ 0 →
      App.SMCGetFloatValue env conn c0 c1 c2 c3 = 0) ∧
    ((env 0).1 = 0 → (env 1).1 = 0 →
      (env 0).2.keyInfo.dataType ≠ 1718383648 →
      App.SMCGetFloatValue env conn c0 c1 c2 c3 = 0) := by
  refine ⟨fun h1 => ?_, fun h1 h2 => ?_, fun h1 h2 htag => ?_⟩
  · unfold App.SMCGetFloatValue
    rw [readKey_fail1 env conn c0 c1 c2 c3 h1]
    simp [h1]
  · unfold App.SMCGetFloatValue
    rw [readKey_fail2 env conn c0 c1 c2 c3 h1 h2]
    simp [h2]
  · unfold App.SMCGetFloatValue
    rw [readKey_ok env conn c0 c1 c2 c3 h1 h2]
    simp [readKeyVal1, htag]

/-- C4 witness: the three failure shapes at concrete sessions — a failing
first exchange, a failing second exchange, and a successful read whose
type tag 1970169460 is not the float tag — all decode to 0. -/
theorem getFloatValue_neutral_default_witness :
    App.SMCGetFloatValue (fun _ => (3, zeroKeyData)) 1 84 67 48 80 = 0 ∧
    App.SMCGetFloatValue envFail2 1 84 67 48 80 = 0 ∧
    App.SMCGetFloatValue
      (fun _ => (0, { zeroKeyData with keyInfo := ⟨4, 1970169460, 0⟩ })) 1
      84 67 48 80 = 0 := by
  refine ⟨?_, ?_, ?_⟩
  · exact (getFloatValue_neutral_default (fun _ => (3, zeroKeyData)) 1
      84 67 48 80).1 (by norm_num)
  · exact (getFloatValue_neutral_default envFail2 1 84 67 48 80).2.1 rfl
      (by decide)
  · exact (getFloatValue_neutral_default
      (fun _ => (0, { zeroKeyData with keyInfo := ⟨4, 1970169460, 0⟩ })) 1
      84 67 48 80).2.2 rfl rfl (by norm_num)

/-- A concrete session in which both exchanges succeed and the count
payload starts with byte 128: an unsigned count of 2^31. -/
def envHighCount : KernelEnv := fun n =>
  if n = 0 then (0, { zeroKeyData with keyInfo := ⟨4, 1969828661, 0⟩ })
  else (0, { zeroKeyData with bytes := 128 :: List.replicate 31 0 })

/-- C5.  The claim asserts that on success the function returns the
big-endian unsigned 32-bit interpretation of the first 4 payload bytes.
`SMCGetKeyCount` returns the assembled `unsigned int` count through its
`int` return type, so for the payload bytes 128, 0, 0, 0 — unsigned
interpretation 2147483648 — the returned int is -2147483648, not the
unsigned value. -/
theorem keyCount_counterexample :
    App.SMCGetKeyCount envHighCount 1 = -2147483648 ∧
      ¬ (App.SMCGetKeyCount envHighCount 1 = 2147483648) := by
  constructor
  · decide
  · decide

/-- C5 (amended).  `SMCGetKeyCount` reads the well-known key with chars
35, 75, 69, 89 and returns 0 whenever either exchange of the underlying
read reports a non-success status; on success it returns the big-endian
assembly of the first 4 payload bytes converted to a signed 32-bit int
(two's complement), which equals the unsigned 32-bit interpretation
whenever the leading byte is below 128 — in particular the payload
0, 0, 0, 42 yields 42. -/
theorem keyCount_behavior (env : KernelEnv) (conn : Nat) :
    ((env 0).1 ≠ 0 → App.SMCGetKeyCount env conn = 0) ∧
    ((env 0).1 = 0 → (env 1).1 ≠ 0 → App.SMCGetKeyCount env conn = 0) ∧
    (∀ b0 b1 b2 b3 : Nat, ∀ rest : List Nat,
      (env 0).1 = 0 → (env 1).1 = 0 →
      (env 1).2.bytes = b0 :: b1 :: b2 :: b3 :: rest →
      b0 < 256 → b1 < 256 → b2 < 256 → b3 < 256 →
      App.SMCGetKeyCount env conn =
        intOfU32 ((b0 <<< 24) ||| (b1 <<< 16) ||| (b2 <<< 8) ||| b3) ∧
      (b0 < 128 →
        App.SMCGetKeyCount env conn =
          (((b0 <<< 24) ||| (b1 <<< 16) ||| (b2 <<< 8) ||| b3 : Nat) : Int))) := by
  refine ⟨fun h1 => ?_, fun h1 h2 => ?_,
    fun b0 b1 b2 b3 rest h1 h2 hbytes w0 w1 w2 w3 => ?_⟩
  · unfold App.SMCGetKeyCount
    rw [readKey_fail1 env conn 35 75 69 89 h1]
    simp [h1]
  · unfold App.SMCGetKeyCount
    rw [readKey_fail2 env conn 35 75 69 89 h1 h2]
    simp [h2]
  · have hval : App.SMCGetKeyCount env conn =
        intOfU32 ((b0 <<< 24) ||| (b1 <<< 16) ||| (b2 <<< 8) ||| b3) := by
      unfold App.SMCGetKeyCount
      rw [readKey_ok env conn 35 75 69 89 h1 h2]
      simp [readKeyVal1, hbytes, Nat.mod_eq_of_lt, w0, w1, w2, w3]
    refine ⟨hval, fun hsmall => ?_⟩
    rw [hval, lor4_eq_sum b0 b1 b2 b3 w0 w1 w2 w3]
    unfold intOfU32
    rw [if_pos (by omega)]

/-- A concrete session in which both exchanges succeed and the count
payload is the spec's example 0, 0, 0, 42. -/
def envCount42 : KernelEnv := fun n =>
  if n = 0 then (0, { zeroKeyData with keyInfo := ⟨4, 1969828661, 0⟩ })
  else (0, { zeroKeyData with bytes := 0 :: 0 :: 0 :: 42 :: List.replicate 28 0 })

/-- C5 witness: on the payload 0, 0, 0, 42 the count is 42, and a failing
session yields 0. -/
theorem keyCount_behavior_witness :
    App.SMCGetKeyCount envCount42 1 = 42 ∧
      App.SMCGetKeyCount (fun _ => (3, zeroKeyData)) 1 = 0 := by
  constructor
  · rw [((keyCount_behavior envCount42 1).2.2 0 0 0 42 (List.replicate 28 0)
      rfl rfl rfl (by norm_num) (by norm_num) (by norm_num) (by norm_num)).2
      (by norm_num)]
    decide
  · exact (keyCount_behavior (fun _ => (3, zeroKeyData)) 1).1 (by norm_num)

/-- C6.  `SMCGetKeyFromIndex` always issues exactly one exchange, whose
request carries the read-index selector (8) and the index in the 32-bit
scalar field `data32`; on success it writes the four big-endian-unpacked
chars of the response key plus a NUL terminator into the output buffer,
and on a non-success status it returns that status verbatim and leaves
the output buffer unwritten. -/
theorem keyFromIndex_behavior (env : KernelEnv) (conn : Nat) (index : Int) :
    (App.SMCGetKeyFromIndex env conn index).2.2.length = 1 ∧
    ((App.SMCGetKeyFromIndex env conn index).2.2.getD 0
        zeroCallRecord).input.data8 = SMC_CMD_READ_INDEX ∧
    ((App.SMCGetKeyFromIndex env conn index).2.2.getD 0
        zeroCallRecord).input.data32 = u32ofInt index ∧
    ((env 0).1 = 0 →
      (App.SMCGetKeyFromIndex env conn index).2.1 =
        some (unpackKey (env 0).2.key ++ [0]) ∧
      (App.SMCGetKeyFromIndex env conn index).1 = 0) ∧
    ((env 0).1 ≠ 0 →
      (App.SMCGetKeyFromIndex env conn index).1 = (env 0).1 ∧
      (App.SMCGetKeyFromIndex env conn index).2.1 = none) := by
  unfold App.SMCGetKeyFromIndex App.SMCCall
  by_cases h : (env 0).1 = 0 <;> simp [h, unpackKey]

/-- A concrete session whose indexed-lookup response carries the packed
key with chars 35, 75, 69, 89. -/
def envIdx : KernelEnv := fun _ =>
  (0, { zeroKeyData with key := packKey 35 75 69 89 })

/-- C6 witness: at index 0 against `envIdx` one exchange is issued and the
output buffer receives the chars 35, 75, 69, 89 and a NUL — the spec's
example of decoding the well-known enumeration key. -/
theorem keyFromIndex_behavior_witness :
    (App.SMCGetKeyFromIndex envIdx 1 0).2.1 = some [35, 75, 69, 89, 0] ∧
      (App.SMCGetKeyFromIndex envIdx 1 0).2.2.length = 1 := by
  constructor
  · rw [((keyFromIndex_behavior envIdx 1 0).2.2.2.1 rfl).1]
    decide
  · exact (keyFromIndex_behavior envIdx 1 0).1

/-- C7.  `SMCOpen` returns the null handle 0 whenever the service-matching
call reports non-success, whenever the iterator yields no device, and
whenever the service-open call reports non-success; when all three steps
succeed it returns the established connection handle. -/
theorem open_failure_sentinel (env : OpenEnv) :
    (env.matchResult ≠ 0 → App.SMCOpen env = 0) ∧
    (env.device = 0 → App.SMCOpen env = 0) ∧
    (env.openResult ≠ 0 → App.SMCOpen env = 0) ∧
    (env.matchResult = 0 → env.device ≠ 0 → env.openResult = 0 →
      App.SMCOpen env = env.conn) := by
  unfold App.SMCOpen
  refine ⟨fun h => by simp [h], fun h => ?_, fun h => ?_,
    fun h1 h2 h3 => by simp [h1, h2, h3]⟩
  · by_cases h1 : env.matchResult = 0 <;> simp [h, h1]
  · by_cases h1 : env.matchResult = 0
    · by_cases h2 : env.device = 0 <;> simp [h, h1, h2]
    · simp [h1]

/-- C7 witness: the three failure shapes all return the null handle, and a
fully successful environment returns its connection handle 7. -/
theorem open_failure_sentinel_witness :
    App.SMCOpen ⟨1, 5, 0, 7⟩ = 0 ∧ App.SMCOpen ⟨0, 0, 0, 7⟩ = 0 ∧
      App.SMCOpen ⟨0, 5, 2, 7⟩ = 0 ∧ App.SMCOpen ⟨0, 5, 0, 7⟩ = 7 := by
  refine ⟨?_, ?_, ?_, ?_⟩
  · exact (open_failure_sentinel ⟨1, 5, 0, 7⟩).1 (by norm_num)
  · exact (open_failure_sentinel ⟨0, 0, 0, 7⟩).2.1 rfl
  · exact (open_failure_sentinel ⟨0, 5, 2, 7⟩).2.2.1 (by norm_num)
  · exact (open_failure_sentinel ⟨0, 5, 0, 7⟩).2.2.2 rfl (by norm_num) rfl

/-- C9.  Every function of the duplicate copy src/smc.c agrees with its
counterpart of the canonical copy src/internal/app/smc.c on every
environment and argument (the duplicate merely omits the enumeration and
key-info operations). -/
theorem duplicate_copy_equivalent :
    (∀ env : OpenEnv, Root.SMCOpen env = App.SMCOpen env) ∧
    (∀ (closeEnv : Nat → Int) (conn : Nat),
      Root.SMCClose closeEnv conn = App.SMCClose closeEnv conn) ∧
    (∀ (env : KernelEnv) (callNo conn idx : Nat) (s : SMCKeyData_t),
      Root.SMCCall env callNo conn idx s = App.SMCCall env callNo conn idx s) ∧
    (∀ (env : KernelEnv) (conn : Nat) (c0 c1 c2 c3 : Int),
      Root.SMCReadKey env conn c0 c1 c2 c3 =
        App.SMCReadKey env conn c0 c1 c2 c3) ∧
    (∀ (env : KernelEnv) (conn : Nat) (c0 c1 c2 c3 : Int),
      Root.SMCGetFloatValue env conn c0 c1 c2 c3 =
        App.SMCGetFloatValue env conn c0 c1 c2 c3) :=
  ⟨fun _ => rfl, fun _ _ => rfl, fun _ _ _ _ _ => rfl,
    fun _ _ _ _ _ _ => rfl, fun _ _ _ _ _ _ => rfl⟩

/-- Replacement of the reported `dataSize` inside a response structure,
leaving every other field unchanged. -/
def setDataSize (s : SMCKeyData_t) (d : Nat) : SMCKeyData_t :=
  { s with keyInfo := { s.keyInfo with dataSize := d } }

/-- C10.  On a successful read whose `dataType` is the float tag, the
decoder reinterprets the first 4 bytes of the payload buffer without ever
inspecting the reported `dataSize`: replacing that size by any value `d`
(including values below 4, and 0) leaves the decoded result unchanged, and
the payload buffer of the assembled value is the full fixed 32-byte
array, so the 4-byte access is in bounds for every `dataSize`. -/
theorem getFloatValue_ignores_dataSize (env : KernelEnv) (conn : Nat)
    (c0 c1 c2 c3 : Int) (d : Nat)
    (h1 : (env 0).1 = 0) (h2 : (env 1).1 = 0)
    (htag : (env 0).2.keyInfo.dataType = 1718383648)
    (hlen : ((env 1).2.bytes).length = 32) :
    App.SMCGetFloatValue env conn c0 c1 c2 c3 =
      floatBitsOfBytes ((env 1).2.bytes) ∧
    App.SMCGetFloatValue
        (fun n => if n = 0 then ((env 0).1, setDataSize (env 0).2 d)
          else env n) conn c0 c1 c2 c3 =
      App.SMCGetFloatValue env conn c0 c1 c2 c3 ∧
    ((App.SMCReadKey env conn c0 c1 c2 c3).2.1.bytes).length = 32 := by
  have base : App.SMCGetFloatValue env conn c0 c1 c2 c3 =
      floatBitsOfBytes ((env 1).2.bytes) := by
    unfold App.SMCGetFloatValue
    rw [readKey_ok env conn c0 c1 c2 c3 h1 h2]
    simp [readKeyVal1, htag]
  refine ⟨base, ?_, ?_⟩
  · have alt : App.SMCGetFloatValue
        (fun n => if n = 0 then ((env 0).1, setDataSize (env 0).2 d)
          else env n) conn c0 c1 c2 c3 =
        floatBitsOfBytes ((env 1).2.bytes) := by
      unfold App.SMCGetFloatValue
      rw [readKey_ok (fun n => if n = 0 then ((env 0).1, setDataSize (env 0).2 d)
        else env n) conn c0 c1 c2 c3 (by simpa using h1) (by simpa using h2)]
      simp [readKeyVal1, setDataSize, htag]
    rw [alt, base]
  · rw [readKey_ok env conn c0 c1 c2 c3 h1 h2]
    simpa using hlen

/-- A concrete session reporting the float tag with `dataSize` 0 and a
full 32-byte payload starting with bytes 1, 2, 3, 4. -/
def envSizeZero : KernelEnv := fun n =>
  if n = 0 then (0, { zeroKeyData with keyInfo := ⟨0, 1718383648, 0⟩ })
  else (0, { zeroKeyData with bytes := 1 :: 2 :: 3 :: 4 :: List.replicate 28 0 })

/-- C10 witness: with reported `dataSize` 0 the decoder still reads the
first 4 zero-filled-buffer bytes and the assembled value carries the full
32-byte payload. -/
theorem getFloatValue_ignores_dataSize_witness :
    App.SMCGetFloatValue envSizeZero 1 84 67 48 80 =
      floatBitsOfBytes ((envSizeZero 1).2.bytes) ∧
    ((App.SMCReadKey envSizeZero 1 84 67 48 80).2.1.bytes).length = 32 := by
  constructor
  · exact (getFloatValue_ignores_dataSize envSizeZero 1 84 67 48 80 7
      rfl rfl rfl (by decide)).1
  · exact (getFloatValue_ignores_dataSize envSizeZero 1 84 67 48 80 7
      rfl rfl rfl (by decide)).2.2
